import Mathlib

/-!
Verification development for the deep (sub-field) column projection engine of
the arrow-datafusion fork.  Each section shallowly embeds one Rust source file
(or, where the deciding code is absent from the provided sources, a model built
from the specification) and proves the stated properties about it.
-/

set_option maxRecDepth 4000

namespace DF

/-- Error type of `datafusion_common::DataFusionError`, restricted to the
constructors used by the embedded code (`Plan` for planning errors). -/
inductive DataFusionError where
  | plan (msg : String)
deriving DecidableEq, Repr

/-- Modelled from the spec: §4.1 describes `rewrite_children(node, rewriter) ->
(newNode, changed: bool)`; `Transformed` (from `tree_node.rs`, which is not among
the provided sources) packages the rewritten data together with the change flag. -/
structure Transformed (α : Type) where
  data : α
  transformed : Bool
deriving DecidableEq, Repr

/-- `Transformed::no`: the data, marked as unchanged. -/
def Transformed.no {α : Type} (a : α) : Transformed α := ⟨a, false⟩

/-- `Transformed::yes`: the data, marked as changed. -/
def Transformed.yes {α : Type} (a : α) : Transformed α := ⟨a, true⟩

/-- `Transformed::update_data`: map the payload, keeping the change flag. -/
def Transformed.update_data {α β : Type} (t : Transformed α) (f : α → β) : Transformed β :=
  ⟨f t.data, t.transformed⟩

/-- Modelled from the spec: §4.1's visitor control signal
{Continue, Stop, SkipSubtree} (`TreeNodeRecursion` in `tree_node.rs`,
not among the provided sources; `Jump` is the skip-subtree signal). -/
inductive TreeNodeRecursion where
  | Continue
  | Jump
  | Stop
deriving DecidableEq, Repr

end DF

namespace SubstraitTree

open DF

/-- Opaque payload: `substrait::proto::RelCommon` (external protobuf type,
never inspected by the embedded code; carried through unchanged). -/
structure RelCommon where
  tag : Nat
deriving DecidableEq, Repr

/-- Opaque payload: `substrait::proto::Expression` (external). -/
structure Expression where
  tag : Nat
deriving DecidableEq, Repr

/-- Opaque payload: `substrait::proto::extensions::AdvancedExtension` (external). -/
structure AdvancedExtension where
  tag : Nat
deriving DecidableEq, Repr

/-- Opaque payload: `substrait::proto::ReadRel` content (the read relation has
no child relations; its fields are never inspected by the embedded code). -/
structure ReadRel where
  tag : Nat
deriving DecidableEq, Repr

/-- Opaque payload: `substrait::proto::aggregate_rel::Grouping` (external). -/
structure Grouping where
  tag : Nat
deriving DecidableEq, Repr

/-- Opaque payload: `substrait::proto::aggregate_rel::Measure` (external). -/
structure Measure where
  tag : Nat
deriving DecidableEq, Repr

/-- Opaque payload: `substrait::proto::SortField` (external). -/
structure SortField where
  tag : Nat
deriving DecidableEq, Repr

/-- Opaque payload: detail of extension relations (`google.protobuf.Any`). -/
structure ExtDetail where
  tag : Nat
deriving DecidableEq, Repr

mutual

/-- `substrait::proto::Rel`: a relation node, holding an optional variant tag
(`rel_type : Option<RelType>`).  `Box` indirections of the Rust original are
elided (a `Box<Rel>` is embedded as `Rel`). -/
inductive Rel where
  | mk (rel_type : Option RelType)

/-- `substrait::proto::rel::RelType`: the tagged union of relation variants.
Each variant's record struct (`ProjectRel`, `FilterRel`, ...) is inlined into
the constructor's fields, in source order.  The variants embedded are the ones
named in `substrait_tree.rs` plus `Join` and `Cross` (present in the substrait
union, matched there only by the catch-all arms). -/
inductive RelType where
  | read (read : ReadRel)
  | project (common : Option RelCommon) (input : Option Rel)
      (expressions : List Expression) (advanced_extension : Option AdvancedExtension)
  | filter (common : Option RelCommon) (input : Option Rel)
      (condition : Option Expression) (advanced_extension : Option AdvancedExtension)
  | fetch (common : Option RelCommon) (input : Option Rel)
      (offset : Int) (count : Int) (advanced_extension : Option AdvancedExtension)
  | aggregate (common : Option RelCommon) (input : Option Rel)
      (groupings : List Grouping) (measures : List Measure)
      (advanced_extension : Option AdvancedExtension)
  | sort (common : Option RelCommon) (input : Option Rel)
      (sorts : List SortField) (advanced_extension : Option AdvancedExtension)
  | join (common : Option RelCommon) (left : Option Rel) (right : Option Rel)
      (expression : Option Expression) (join_type : Nat)
      (advanced_extension : Option AdvancedExtension)
  | set (common : Option RelCommon) (inputs : List Rel) (op : Nat)
      (advanced_extension : Option AdvancedExtension)
  | extensionSingle (common : Option RelCommon) (input : Option Rel)
      (detail : Option ExtDetail)
  | extensionMulti (common : Option RelCommon) (inputs : List Rel)
      (detail : Option ExtDetail)
  | extensionLeaf (common : Option RelCommon) (detail : Option ExtDetail)
  | cross (common : Option RelCommon) (left : Option Rel) (right : Option Rel)
      (advanced_extension : Option AdvancedExtension)
  | exchange (common : Option RelCommon) (input : Option Rel)
      (partition_count : Int) (advanced_extension : Option AdvancedExtension)

end

/-- Accessor for the single field of `Rel`. -/
def Rel.rel_type : Rel → Option RelType
  | .mk rt => rt

/-- `inputs(rel: &Rel) -> Vec<&Rel>` from `substrait_tree.rs`: the read-only
child enumeration.  `Option::as_deref().into_iter().collect()` on an optional
boxed child is embedded as `Option.toList`; the Rust `_ => vec![]` catch-all
(covering the FIXME-commented `Join` and `Cross` arms, among others) is the
final wildcard arm here as well. -/
def inputs (rel : Rel) : List Rel :=
  match rel.rel_type with
  | some rel_type =>
    match rel_type with
    | .read _ => []
    | .project _ input _ _ => input.toList
    | .filter _ input _ _ => input.toList
    | .fetch _ input _ _ _ => input.toList
    | .aggregate _ input _ _ _ => input.toList
    | .sort _ input _ _ => input.toList
    | .set _ inputs _ _ => inputs
    | .extensionSingle _ input _ => input.toList
    | .extensionMulti _ inputs _ => inputs
    | .extensionLeaf _ _ => []
    | .exchange _ input _ _ => input.toList
    | _ => []
  | none => []

/-- Modelled from the spec: §4.2's per-variant child lists ("leaf
scan/extension-leaf → none; projection/filter/fetch/aggregate/sort/
extension-single/exchange → exactly its one input; set-op/extension-multi →
all of its inputs; join → left and right").  This is the refinement comparator
for the read-only traversal; `Cross` is a binary join-like variant (left and
right), per the commented-out source arm. -/
def specChildren (rel : Rel) : List Rel :=
  match rel.rel_type with
  | some rel_type =>
    match rel_type with
    | .read _ => []
    | .project _ input _ _ => input.toList
    | .filter _ input _ _ => input.toList
    | .fetch _ input _ _ _ => input.toList
    | .aggregate _ input _ _ _ => input.toList
    | .sort _ input _ _ => input.toList
    | .join _ left right _ _ _ => left.toList ++ right.toList
    | .set _ inputs _ _ => inputs
    | .extensionSingle _ input _ => input.toList
    | .extensionMulti _ inputs _ => inputs
    | .extensionLeaf _ _ => []
    | .cross _ left right _ => left.toList ++ right.toList
    | .exchange _ input _ _ => input.toList
  | none => []

/-- `TreeNodeIterator::apply_until_stop`: applies `f` to each item in order,
short-circuiting on `Stop` (and on errors); `Continue` and `Jump` proceed.
Modelled from the spec: §4.1's short-circuiting read-only traversal
(`tree_node.rs` is not among the provided sources). -/
def applyUntilStop (f : Rel → Except DataFusionError TreeNodeRecursion) :
    List Rel → Except DataFusionError TreeNodeRecursion
  | [] => .ok .Continue
  | r :: rest =>
    match f r with
    | .ok .Stop => .ok .Stop
    | .ok _ => applyUntilStop f rest
    | .error e => .error e

/-- `<Rel as TreeNode>::apply_children`: folds the visitor over `inputs`. -/
def Rel.apply_children (self : Rel)
    (f : Rel → Except DataFusionError TreeNodeRecursion) :
    Except DataFusionError TreeNodeRecursion :=
  applyUntilStop f (inputs self)

/-- `transform_box`: applies `f` to the boxed child; `update_data(Box::new)`
is the identity in this embedding (boxes are elided). -/
def transform_box (br : Rel) (f : Rel → Except DataFusionError (Transformed Rel)) :
    Except DataFusionError (Transformed Rel) :=
  match f br with
  | .ok t => .ok (t.update_data id)
  | .error e => .error e

/-- `transform_option_box`: `None` children are returned unchanged
(`Transformed::no(None)`); `Some` children go through `transform_box`. -/
def transform_option_box (obr : Option Rel)
    (f : Rel → Except DataFusionError (Transformed Rel)) :
    Except DataFusionError (Transformed (Option Rel)) :=
  match obr with
  | none => .ok (Transformed.no none)
  | some be =>
    match transform_box be f with
    | .ok t => .ok (t.update_data some)
    | .error e => .error e

/-- `<Rel as TreeNode>::map_children` from `substrait_tree.rs`: destructures
the variant, rewrites the single optional child of the supported variants
(`Read`, `Project`, `Filter`, `Fetch`, `Aggregate`, `Sort`, `ExtensionSingle`),
reconstructs the variant with every other field carried over, and re-wraps into
`Rel { rel_type: Some(..) }`; all remaining variants hit the `_ =>
Transformed::no(rel_type)` catch-all; a missing variant tag is a `Plan` error. -/
def Rel.map_children (self : Rel)
    (f : Rel → Except DataFusionError (Transformed Rel)) :
    Except DataFusionError (Transformed Rel) :=
  match self.rel_type with
  | some rel_type =>
    let t : Except DataFusionError (Transformed RelType) :=
      match rel_type with
      | .read r => .ok (Transformed.no (RelType.read r))
      | .project common input expressions advanced_extension =>
        match transform_option_box input f with
        | .ok t => .ok (t.update_data (fun input =>
            RelType.project common input expressions advanced_extension))
        | .error e => .error e
      | .filter common input condition advanced_extension =>
        match transform_option_box input f with
        | .ok t => .ok (t.update_data (fun input =>
            RelType.filter common input condition advanced_extension))
        | .error e => .error e
      | .fetch common input offset count advanced_extension =>
        match transform_option_box input f with
        | .ok t => .ok (t.update_data (fun input =>
            RelType.fetch common input offset count advanced_extension))
        | .error e => .error e
      | .aggregate common input groupings measures advanced_extension =>
        match transform_option_box input f with
        | .ok t => .ok (t.update_data (fun input =>
            RelType.aggregate common input groupings measures advanced_extension))
        | .error e => .error e
      | .sort common input sorts advanced_extension =>
        match transform_option_box input f with
        | .ok t => .ok (t.update_data (fun input =>
            RelType.sort common input sorts advanced_extension))
        | .error e => .error e
      | .extensionSingle common input detail =>
        match transform_option_box input f with
        | .ok t => .ok (t.update_data (fun input =>
            RelType.extensionSingle common input detail))
        | .error e => .error e
      | other => .ok (Transformed.no other)
    match t with
    | .ok t => .ok (t.update_data (fun rt => Rel.mk (some rt)))
    | .error e => .error e
  | none => .error (DataFusionError.plan "RelType is None")

/-- The variant kinds for which `map_children` has a rewrite arm (everything
outside its catch-all). -/
def supportedKind (rel : Rel) : Bool :=
  match rel.rel_type with
  | some rel_type =>
    match rel_type with
    | .read _ => true
    | .project _ _ _ _ => true
    | .filter _ _ _ _ => true
    | .fetch _ _ _ _ _ => true
    | .aggregate _ _ _ _ _ => true
    | .sort _ _ _ _ => true
    | .extensionSingle _ _ _ => true
    | _ => false
  | none => false

/-- Replaces every child slot of a node by `none`/`[]`, leaving all non-child
fields in place: two nodes are `eraseInputs`-equal exactly when they agree on
the variant tag and on every non-child field. -/
def eraseInputs (rel : Rel) : Rel :=
  match rel.rel_type with
  | some rel_type =>
    Rel.mk (some (match rel_type with
      | .read r => .read r
      | .project common _ expressions advanced_extension =>
        .project common none expressions advanced_extension
      | .filter common _ condition advanced_extension =>
        .filter common none condition advanced_extension
      | .fetch common _ offset count advanced_extension =>
        .fetch common none offset count advanced_extension
      | .aggregate common _ groupings measures advanced_extension =>
        .aggregate common none groupings measures advanced_extension
      | .sort common _ sorts advanced_extension =>
        .sort common none sorts advanced_extension
      | .join common _ _ expression join_type advanced_extension =>
        .join common none none expression join_type advanced_extension
      | .set common _ op advanced_extension =>
        .set common [] op advanced_extension
      | .extensionSingle common _ detail =>
        .extensionSingle common none detail
      | .extensionMulti common _ detail =>
        .extensionMulti common [] detail
      | .extensionLeaf common detail =>
        .extensionLeaf common detail
      | .cross common _ _ advanced_extension =>
        .cross common none none advanced_extension
      | .exchange common _ partition_count advanced_extension =>
        .exchange common none partition_count advanced_extension))
  | none => Rel.mk none

/-- A leaf read node used in the concrete evaluations below. -/
def readNodeA : Rel := Rel.mk (some (RelType.read ⟨0⟩))

/-- A second, distinct leaf read node. -/
def readNodeB : Rel := Rel.mk (some (RelType.read ⟨1⟩))

/-- A join node with both children present: the concrete input on which the
read-only traversal drops children. -/
def joinExample : Rel :=
  Rel.mk (some (RelType.join none (some readNodeA) (some readNodeB) none 0 none))

/-- A projection node over `readNodeA` with non-trivial payload fields. -/
def projExample : Rel :=
  Rel.mk (some (RelType.project none (some readNodeA) [⟨5⟩] (some ⟨7⟩)))

/-- The rewriter that marks every child as unchanged. -/
def idRewriter : Rel → Except DataFusionError (Transformed Rel) :=
  fun c => .ok (Transformed.no c)

/-- A rewriter that replaces every child by `readNodeB`, marked as changed. -/
def replaceRewriter : Rel → Except DataFusionError (Transformed Rel) :=
  fun _ => .ok (Transformed.yes readNodeB)

/-- The result of rewriting `projExample`'s child with `replaceRewriter`. -/
def projExampleRewritten : Transformed Rel :=
  Transformed.yes (Rel.mk (some (RelType.project none (some readNodeB) [⟨5⟩] (some ⟨7⟩))))

end SubstraitTree

namespace Catalog

open DF

/-- Opaque handle: the `&dyn Session` planning state (external, never
inspected by the embedded default methods). -/
structure SessionState where
  tag : Nat
deriving DecidableEq, Repr

/-- Opaque payload: a `datafusion_expr::Expr` filter expression (the embedded
default methods never inspect filters, only count them). -/
structure FilterExpr where
  tag : Nat
deriving DecidableEq, Repr

/-- Opaque handle: an `Arc<dyn ExecutionPlan>` scan result (external). -/
structure ExecutionPlan where
  tag : Nat
deriving DecidableEq, Repr

/-- `datafusion_expr::TableProviderFilterPushDown`. -/
inductive TableProviderFilterPushDown where
  | unsupported
  | inexact
  | exact
deriving DecidableEq, Repr

/-- The deep projection map `HashMap<usize, Vec<String>>`, embedded as an
association list from column ordinal to dotted sub-field path strings. -/
abbrev DeepHashMap := List (Nat × List String)

/-- The `TableProvider` trait, embedded as a record whose single field is the
provider-supplied required method `scan(state, projection, filters, limit)`
(`async` elided: the embedding is the returned `Result` value). The trait's
provided default methods are defined below as functions on this record. -/
structure TableProvider where
  scan : SessionState → Option (List Nat) → List FilterExpr → Option Nat →
    Except DataFusionError ExecutionPlan

/-- Default implementation of `TableProvider::scan_deep` from `table.rs`:
`self.scan(state, projection, filters, limit)` — the `_projection_deep`
argument is bound but unused. -/
def TableProvider.scan_deep (self : TableProvider) (state : SessionState)
    (projection : Option (List Nat)) (_projection_deep : Option DeepHashMap)
    (filters : List FilterExpr) (limit : Option Nat) :
    Except DataFusionError ExecutionPlan :=
  self.scan state projection filters limit

/-- Default implementation of `TableProvider::supports_filters_pushdown` from
`table.rs`: `Ok(vec![TableProviderFilterPushDown::Unsupported; filters.len()])`. -/
def TableProvider.supports_filters_pushdown (_self : TableProvider)
    (filters : List FilterExpr) :
    Except DataFusionError (List TableProviderFilterPushDown) :=
  .ok (List.replicate filters.length .unsupported)

end Catalog

namespace FirstLast

/-- Arrow `DataType`, restricted to the scalar types needed to type the
accumulators in `first_last.rs`. -/
inductive ADataType where
  | int64
  | utf8
  | boolean
deriving DecidableEq, Repr

/-- `datafusion_common::ScalarValue` over the embedded data types; each
constructor carries an `Option` payload, `none` encoding the typed null. -/
inductive ScalarValue where
  | int64 (v : Option Int)
  | utf8 (v : Option String)
  | boolean (v : Option Bool)
deriving DecidableEq, Repr

/-- `ScalarValue::try_from(&DataType)`: the typed null value of a data type
(total on the embedded types, where it never fails). -/
def ScalarValue.tryFromDataType : ADataType → ScalarValue
  | .int64 => .int64 none
  | .utf8 => .utf8 none
  | .boolean => .boolean none

/-- An Arrow `ArrayRef`, embedded as the list of its scalar elements;
`ScalarValue::try_from_array(values, i)` is element lookup. -/
abbrev ArrayRef := List ScalarValue

/-- `FirstValueAccumulator` from `first_last.rs`: the stored first value and
the `is_set` flag ("Once we see (`is_set=true`) first value, we do not update
`first`"). -/
structure FirstValueAccumulator where
  first : ScalarValue
  is_set : Bool
deriving DecidableEq, Repr

/-- `FirstValueAccumulator::try_new`: typed null, `is_set = false`. -/
def FirstValueAccumulator.try_new (dt : ADataType) : FirstValueAccumulator :=
  { first := ScalarValue.tryFromDataType dt, is_set := false }

/-- `FirstValueAccumulator::update_batch` on its single relevant input array
(`values[0]` in the Rust slice-of-columns signature):
`if !values.is_empty() && !self.is_set { self.first = try_from_array(values, 0)?;
self.is_set = true; }`. -/
def FirstValueAccumulator.update_batch (self : FirstValueAccumulator)
    (values : ArrayRef) : FirstValueAccumulator :=
  match values, self.is_set with
  | v :: _, false => { first := v, is_set := true }
  | _, _ => self

/-- `FirstValueAccumulator::merge_batch`: delegates to `update_batch` on the
firsts state column (`FIRST_VALUE(first1, first2, first3, ...)`). -/
def FirstValueAccumulator.merge_batch (self : FirstValueAccumulator)
    (states : ArrayRef) : FirstValueAccumulator :=
  self.update_batch states

/-- `FirstValueAccumulator::evaluate`: `Ok(self.first.clone())`. -/
def FirstValueAccumulator.evaluate (self : FirstValueAccumulator) : ScalarValue :=
  self.first

/-- One call in an accumulator's lifetime: `update_batch` or `merge_batch`,
with its (single relevant) input array. -/
inductive AccCall where
  | update (values : ArrayRef)
  | merge (states : ArrayRef)
deriving DecidableEq, Repr

/-- The input array of a call. -/
def AccCall.values : AccCall → ArrayRef
  | .update v => v
  | .merge v => v

/-- Runs a sequence of `update_batch`/`merge_batch` calls against an
accumulator, in order. -/
def FirstValueAccumulator.runCalls (self : FirstValueAccumulator) :
    List AccCall → FirstValueAccumulator
  | [] => self
  | c :: rest =>
    (match c with
     | .update v => self.update_batch v
     | .merge v => self.merge_batch v).runCalls rest

/-- The head element of the first non-empty array in the list, if any. -/
def firstNonEmptyHead : List ArrayRef → Option ScalarValue
  | [] => none
  | [] :: rest => firstNonEmptyHead rest
  | (v :: _) :: _ => some v

end FirstLast

namespace GetField

/-- Arrow `DataType`, restricted to the shapes `get_field` dispatches on:
`Null`, scalar types, `Struct(fields)`, `List(field)` and `Map(entries, _)`
(a map's entries field is a two-field struct whose second member is the value). -/
inductive GDataType where
  | null
  | int64
  | utf8
  | boolean
  | structT (fields : List (String × GDataType))
  | listT (fieldName : String) (elemType : GDataType)
  | mapT (keyType : GDataType) (valueType : GDataType)

/-- `DataType::is_null()`. -/
def GDataType.is_null : GDataType → Bool
  | .null => true
  | _ => false

/-- `DataType::is_nested()`: true for the nested (non-primitive) shapes. -/
def GDataType.is_nested : GDataType → Bool
  | .structT _ => true
  | .listT _ _ => true
  | .mapT _ _ => true
  | _ => false

/-- `ScalarValue`, restricted to the constructors `invoke_with_args`
dispatches on for the field-name argument: `Utf8`, `List`, `Struct`, plus
`Null` and scalar payload constructors. Non-`Utf8` payloads are kept opaque
(data type plus tag): only their data type is consulted by the embedded code. -/
inductive SV where
  | null
  | int64 (v : Option Int)
  | utf8 (s : Option String)
  | listSV (elemName : String) (elemType : GDataType) (tag : Nat)
  | structSV (fields : List (String × GDataType)) (tag : Nat)

/-- `ScalarValue::data_type()`. -/
def SV.data_type : SV → GDataType
  | .null => .null
  | .int64 _ => .int64
  | .utf8 _ => .utf8
  | .listSV n t _ => .listT n t
  | .structSV fs _ => .structT fs

/-- An Arrow array: its data type, its named child arrays (used by struct
column lookup), and an opaque buffer tag.  The buffer-level kernels of
`getfield.rs` (offset slicing, null buffers, `MutableArrayData`) are out of
scope per the specification (§1: the array-kernel implementation is an
external collaborator); this embedding keeps their dispatch structure and
their success/error behavior at the data-type level. -/
inductive ArrowArray where
  | mk (dtype : GDataType) (children : List (String × ArrowArray)) (tag : Nat)

/-- The data type of an array. -/
def ArrowArray.dtype : ArrowArray → GDataType
  | .mk d _ _ => d

/-- `StructArray::column_by_name`. -/
def ArrowArray.column_by_name (a : ArrowArray) (name : String) : Option ArrowArray :=
  match a with
  | .mk _ children _ =>
    match children.find? (fun c => c.1 == name) with
    | some c => some c.2
    | none => none

/-- `ScalarValue::to_array()`: an array of the scalar's data type (content
abstracted at the buffer level). -/
def SV.to_array : SV → ArrowArray
  | s => .mk s.data_type [] 0

/-- `datafusion_expr::ColumnarValue`. -/
inductive ColumnarValue where
  | scalar (s : SV)
  | array (a : ArrowArray)

/-- `ColumnarValue::data_type()`. -/
def ColumnarValue.data_type : ColumnarValue → GDataType
  | .scalar s => s.data_type
  | .array a => a.dtype

/-- `ColumnarValue::values_to_arrays` on the base argument: an existing array
is kept, a scalar is expanded to an array of its data type. -/
def ColumnarValue.to_array : ColumnarValue → ArrowArray
  | .scalar s => s.to_array
  | .array a => a

/-- Position of a field name in a struct's field list
(`fields.iter().position(|f| f.name() == field_name)`). -/
def fieldPosition (fields : List (String × GDataType)) (field_name : String) :
    Option (String × GDataType) :=
  match fields.find? (fun f => f.1 == field_name) with
  | some f => some f
  | none => none

/-- `get_field_from_list` from `invoke_with_args`: requires a list of structs,
projects the named struct member and rebuilds a list array of that member's
type; a missing field is an execution error.  (Offset/null-buffer plumbing
abstracted; the success/error dispatch and the result type follow the source.) -/
def get_field_from_list (array : ArrowArray) (field_name : String) :
    Except String ColumnarValue :=
  match array.dtype with
  | .listT _ (.structT fields) =>
    match fieldPosition fields field_name with
    | some f => .ok (.array (.mk (.listT f.1 f.2) [] 0))
    | none => .error ("Field " ++ field_name ++ " not found in struct")
  | _ => .error "Expected a ListArray of Structs"

/-- `process_map_array` from `invoke_with_args`: per-row key lookup in a map
array, producing an array of the map's value type.  (Comparator/equality
kernels abstracted; the result type follows the source: the values column of
the map's entries.) -/
def process_map_array (array : ArrowArray) (_key_array : ArrowArray) :
    Except String ColumnarValue :=
  match array.dtype with
  | .mapT _ valueType => .ok (.array (.mk valueType [] 0))
  | _ => .error "Expected a MapArray"

/-- `GetFieldFunc::invoke_with_args` from `getfield.rs`: destructures the two
arguments (`take_function_args`), returns the `Null` scalar early when the
base's data type is `Null`, requires the field name to be a scalar, then
dispatches on `(array.data_type(), name)` exactly as the source match does. -/
def invoke_with_args (args : List ColumnarValue) : Except String ColumnarValue :=
  match args with
  | [base, field_name] =>
    if (base.data_type).is_null then
      .ok (.scalar .null)
    else
      let array := base.to_array
      match field_name with
      | .array _ =>
        .error "get_field function requires the argument field_name to be a string"
      | .scalar name =>
        match array.dtype, name with
        | .listT fn ft, .utf8 (some k) =>
          match ft with
          | .structT _ => get_field_from_list (.mk (.listT fn ft) [] 0) k
          | _ => .error "Expected a List of Structs"
        | .mapT kt vt, .listSV en et tag =>
          process_map_array (.mk (.mapT kt vt) [] 0) (.mk (.listT en et) [] tag)
        | .mapT kt vt, .structSV fs tag =>
          process_map_array (.mk (.mapT kt vt) [] 0) (.mk (.structT fs) [] tag)
        | .mapT kt vt, other =>
          if (other.data_type).is_nested then
            .error "unsupported type for map access"
          else
            process_map_array (.mk (.mapT kt vt) [] 0) other.to_array
        | .structT _, .utf8 (some k) =>
          match array.column_by_name k with
          | none => .error ("get indexed field " ++ k ++ " not found in struct")
          | some col => .ok (.array col)
        | .structT _, _ =>
          .error "get_field is only possible on struct with utf8 indexes"
        | .null, _ => .ok (.scalar .null)
        | _, _ =>
          .error "get_field is only possible on maps with utf8 indexes or struct with utf8 indexes"
  | _ => .error "get_field expects two arguments"

end GetField

namespace DeepPruning

/-- Modelled from the spec: the plan propagator and merge algebra
(`optimize_projections_deep`, §4.3–§4.5) are exercised only by the provided
test file and are not among the provided sources.  `DExpr` is the scalar
expression language the path extractor of §4.3 analyzes: bare column
references, literals, field accesses with literal names, field accesses with
non-literal (computed) names, binary operators and `IS NOT NULL`. -/
inductive DExpr where
  | column (idx : Nat)
  | literal (tag : Nat)
  | getFieldLit (base : DExpr) (name : String)
  | getFieldExpr (base : DExpr) (name : DExpr)
  | binary (opTag : Nat) (l r : DExpr)
  | isNotNull (e : DExpr)
deriving DecidableEq, Repr

/-- A structural path: an ordered sequence of field-name components (§3). -/
abbrev Path := List String

/-- All column indices referenced anywhere inside an expression. -/
def referencedColumns : DExpr → List Nat
  | .column i => [i]
  | .literal _ => []
  | .getFieldLit b _ => referencedColumns b
  | .getFieldExpr b n => referencedColumns b ++ referencedColumns n
  | .binary _ l r => referencedColumns l ++ referencedColumns r
  | .isNotNull e => referencedColumns e

/-- Modelled from the spec: §4.3 rules 1–2 — an unbroken chain of
literal-name field accesses rooted directly at a column reference resolves to
`(column index, accumulated path)`; anything else does not resolve. -/
def resolveChain : DExpr → Option (Nat × Path)
  | .column i => some (i, [])
  | .getFieldLit b n =>
    match resolveChain b with
    | some (i, p) => some (i, p ++ [n])
    | none => none
  | _ => none

/-- Modelled from the spec: §4.3's path extractor.  Rule 1: a bare column
yields `(index, [])`.  Rule 2: a resolvable literal-name access chain yields
its accumulated path; a non-literal field name widens every column referenced
in the whole sub-expression to `(index, [])`.  Rule 3: any other operator
recurses into its operands, narrowing only through unbroken chains. -/
def extract : DExpr → List (Nat × Path)
  | .column i => [(i, [])]
  | .literal _ => []
  | .getFieldLit b n =>
    match resolveChain (DExpr.getFieldLit b n) with
    | some ip => [ip]
    | none => extract b
  | .getFieldExpr b n =>
    (referencedColumns (DExpr.getFieldExpr b n)).map (fun i => (i, []))
  | .binary _ l r => extract l ++ extract r
  | .isNotNull e => extract e

/-- Modelled from the spec: §3's `RequirementMap` — per column ordinal, the
set of required structural paths; embedded as an association list with at most
one entry per key. -/
abbrev RequirementMap := List (Nat × List Path)

/-- The path set recorded for a column index, if any. -/
def lookupPaths (m : RequirementMap) (i : Nat) : Option (List Path) :=
  match m.find? (fun e => e.1 == i) with
  | some e => some e.2
  | none => none

/-- Whether path `p` is recorded for column `i`. -/
def memPath (m : RequirementMap) (i : Nat) (p : Path) : Bool :=
  match lookupPaths m i with
  | some ps => ps.contains p
  | none => false

/-- Modelled from the spec: inserting one path into a column's path set with
the §3 normalization — recording the empty path drops all longer paths and the
empty path itself is never dropped; an empty path already present subsumes any
further path; duplicates are not added. -/
def insertPath (ps : List Path) (p : Path) : List Path :=
  if p = [] then [[]]
  else if ps.contains ([] : Path) then ps
  else if ps.contains p then ps
  else ps ++ [p]

/-- Adds one `(column, path)` requirement to a map. -/
def addPath (m : RequirementMap) (i : Nat) (p : Path) : RequirementMap :=
  match m with
  | [] => [(i, [p])]
  | (j, ps) :: rest =>
    if j = i then (j, insertPath ps p) :: rest
    else (j, ps) :: addPath rest i p

/-- Adds a list of `(column, path)` requirements, in order. -/
def addPairs (m : RequirementMap) (pairs : List (Nat × Path)) : RequirementMap :=
  pairs.foldl (fun acc ip => addPath acc ip.1 ip.2) m

/-- Modelled from the spec: `extract_all` — the requirement map contributed by
a list of expressions, the union of their extracted `(column, path)` pairs. -/
def extractAll (es : List DExpr) : RequirementMap :=
  es.foldl (fun m e => addPairs m (extract e)) []

/-- Flattens a map back into `(column, path)` pairs. -/
def toPairs : RequirementMap → List (Nat × Path)
  | [] => []
  | (i, ps) :: rest => ps.map (fun p => (i, p)) ++ toPairs rest

/-- Modelled from the spec: §4.4's `union` — per column present in either map,
the union of the path sets, with empty-path-dominates normalization. -/
def unionMaps (a b : RequirementMap) : RequirementMap :=
  addPairs a (toPairs b)

/-- Modelled from the spec: §4.4's `translate_through_filter(output_requirement,
predicate_exprs)` = `union(output_requirement, extract_all(predicate_exprs))` —
predicate columns must always be read even when absent from the projected
output. -/
def translate_through_filter (output_requirement : RequirementMap)
    (predicate_exprs : List DExpr) : RequirementMap :=
  unionMaps output_requirement (extractAll predicate_exprs)

/-- Modelled from the spec: §4.4's `translate_through_aggregate` — the result
ignores the output requirement on the aggregate's own output columns and is
exactly `extract_all(group_exprs) ∪ extract_all(measure_arg_exprs)`. -/
def translate_through_aggregate (_output_requirement : RequirementMap)
    (group_exprs : List DExpr) (measure_arg_exprs : List DExpr) : RequirementMap :=
  unionMaps (extractAll group_exprs) (extractAll measure_arg_exprs)

/-- Modelled from the spec: §4.4's `translate_through_projection` — each output
column's path set is re-based through the expression defining that column: a
resolvable chain prefixes its base path onto every required path; a
non-analyzable expression contributes its extractor output (degraded entries
included) regardless of the required paths; columns without a requirement
contribute nothing. -/
def translate_through_projection (output_requirement : RequirementMap)
    (projection_exprs : List DExpr) : RequirementMap :=
  output_requirement.foldl (fun acc entry =>
    match projection_exprs.get? entry.1 with
    | none => acc
    | some e =>
      match resolveChain e with
      | some (i, basePath) =>
        addPairs acc (entry.2.map (fun p => (i, basePath ++ p)))
      | none => addPairs acc (extract e)) []

/-- Modelled from the spec: the plan shape the propagator of §4.5 walks
(scan leaves, projection, filter, aggregate). -/
inductive Plan where
  | scanP (tag : Nat)
  | projectionP (exprs : List DExpr) (child : Plan)
  | filterP (predicates : List DExpr) (child : Plan)
  | aggregateP (groups : List DExpr) (measureArgs : List DExpr) (child : Plan)
deriving DecidableEq, Repr

/-- The propagator's output: the same plan with an `OptionalRequirement`
attached to every scan node. -/
inductive APlan where
  | scanP (tag : Nat) (attached : Option RequirementMap)
  | projectionP (exprs : List DExpr) (child : APlan)
  | filterP (predicates : List DExpr) (child : APlan)
  | aggregateP (groups : List DExpr) (measureArgs : List DExpr) (child : APlan)
deriving DecidableEq, Repr

/-- Modelled from the spec: §4.5's single top-down pass — at each node the
incoming `OptionalRequirement` is translated through that node's §4.4 rule
(`None` degrades through every rule and reaches the leaves as `None`), and the
result is attached at every scan node reached. -/
def propagate (req : Option RequirementMap) : Plan → APlan
  | .scanP tag => .scanP tag req
  | .projectionP exprs child =>
    .projectionP exprs
      (propagate (req.map (fun r => translate_through_projection r exprs)) child)
  | .filterP preds child =>
    .filterP preds
      (propagate (req.map (fun r => translate_through_filter r preds)) child)
  | .aggregateP groups measureArgs child =>
    .aggregateP groups measureArgs
      (propagate (req.map (fun r => translate_through_aggregate r groups measureArgs)) child)

/-- The attached `OptionalRequirement`s of all scan nodes, left to right. -/
def scanMaps : APlan → List (Option RequirementMap)
  | .scanP _ attached => [attached]
  | .projectionP _ child => scanMaps child
  | .filterP _ child => scanMaps child
  | .aggregateP _ _ child => scanMaps child

/-- Modelled from the spec: a query as the propagator's entry point sees it —
whether its projection is a wildcard (`SELECT *`), the root output requirement
derived from the consumer's projection list otherwise, and the plan. -/
structure Query where
  wildcard : Bool
  outputRequirement : RequirementMap
  plan : Plan
deriving DecidableEq, Repr

/-- Modelled from the spec: §4.5's root initialization with §8's wildcard
degradation — a `SELECT *` projection yields no deep requirement (`none`);
otherwise the root requirement comes from the consumer's output list. -/
def rootRequirement (q : Query) : Option RequirementMap :=
  if q.wildcard then none else some q.outputRequirement

/-- Modelled from the spec: the optimizer rule's entry point — initialize the
root requirement and propagate it down the plan. -/
def optimizeQuery (q : Query) : APlan :=
  propagate (rootRequirement q) q.plan

/-- A concrete wildcard query used in the closed witness below. -/
def wildcardQueryExample : Query :=
  { wildcard := true
    outputRequirement := []
    plan := Plan.filterP [DExpr.isNotNull (DExpr.getFieldLit (DExpr.column 3) "eVar56")]
      (Plan.projectionP [DExpr.column 0, DExpr.column 1] (Plan.scanP 0)) }

end DeepPruning

/-! ## Theorems -/

namespace SubstraitTree

open DF

/-- C1: the read-only child traversal (`inputs` / `apply_children`) is claimed
to enumerate all of a node's direct children for every node kind — in
particular for rewrite-unsupported kinds such as join.  Evaluated at a join
node with both children present, `inputs` returns the empty list (the
`_ => vec![]` catch-all), while the per-variant child list of the
specification (`specChildren`) returns both children: the traversal silently
skips a join node's children. -/
theorem inputs_skips_join_children :
    inputs joinExample = [] ∧
    specChildren joinExample = [readNodeA, readNodeB] ∧
    inputs joinExample ≠ specChildren joinExample :=
  ⟨rfl, rfl, fun h => List.noConfusion h⟩

/-- C6: applying `map_children` to a relation node whose variant tag is absent
(`rel_type` is `None`) returns the planning error `RelType is None` for every
rewriter, rather than a rewritten node. -/
theorem map_children_missing_rel_type_is_plan_error
    (f : Rel → Except DataFusionError (Transformed Rel)) :
    (Rel.mk none).map_children f
      = .error (DataFusionError.plan "RelType is None") :=
  rfl

/-- C4: for every relation node whose variant tag is present, `map_children`
with a rewriter that returns every child unchanged (`Transformed::no`) returns
the original node unchanged with the `transformed` flag `false` — the
structural-sharing fast path. -/
theorem map_children_identity (rel : Rel)
    (f : Rel → Except DataFusionError (Transformed Rel))
    (hsome : rel.rel_type.isSome = true)
    (hf : ∀ c, f c = .ok (Transformed.no c)) :
    rel.map_children f = .ok (Transformed.no rel) := by
  obtain ⟨ort⟩ := rel
  cases ort with
  | none => simp [Rel.rel_type] at hsome
  | some rt =>
    cases rt with
    | read r => rfl
    | project common input expressions advanced_extension =>
      cases input with
      | none => rfl
      | some c =>
        simp [Rel.map_children, Rel.rel_type, transform_option_box, transform_box,
          hf, Transformed.update_data, Transformed.no]
    | filter common input condition advanced_extension =>
      cases input with
      | none => rfl
      | some c =>
        simp [Rel.map_children, Rel.rel_type, transform_option_box, transform_box,
          hf, Transformed.update_data, Transformed.no]
    | fetch common input offset count advanced_extension =>
      cases input with
      | none => rfl
      | some c =>
        simp [Rel.map_children, Rel.rel_type, transform_option_box, transform_box,
          hf, Transformed.update_data, Transformed.no]
    | aggregate common input groupings measures advanced_extension =>
      cases input with
      | none => rfl
      | some c =>
        simp [Rel.map_children, Rel.rel_type, transform_option_box, transform_box,
          hf, Transformed.update_data, Transformed.no]
    | sort common input sorts advanced_extension =>
      cases input with
      | none => rfl
      | some c =>
        simp [Rel.map_children, Rel.rel_type, transform_option_box, transform_box,
          hf, Transformed.update_data, Transformed.no]
    | extensionSingle common input detail =>
      cases input with
      | none => rfl
      | some c =>
        simp [Rel.map_children, Rel.rel_type, transform_option_box, transform_box,
          hf, Transformed.update_data, Transformed.no]
    | join common left right expression join_type advanced_extension => rfl
    | set common inputs op advanced_extension => rfl
    | extensionMulti common inputs detail => rfl
    | extensionLeaf common detail => rfl
    | cross common left right advanced_extension => rfl
    | exchange common input partition_count advanced_extension => rfl

/-- Witness for C4: the identity rewriter on a concrete projection node. -/
theorem map_children_identity_witness :
    projExample.map_children idRewriter = .ok (Transformed.no projExample) :=
  map_children_identity projExample idRewriter rfl (fun _ => rfl)

/-- C5: for every relation node of a rewrite-supported kind (read, project,
filter, fetch, aggregate, sort, extension-single) and every rewriter, a
successful `map_children` reconstructs a node of the same variant whose every
non-child field (common options, expressions/condition/sorts/offset/count
payload, advanced extension payload) is unchanged: erasing the child slots of
input and output yields identical nodes. -/
theorem map_children_preserves_nonchild_fields (rel : Rel)
    (f : Rel → Except DataFusionError (Transformed Rel)) (t : Transformed Rel)
    (hs : supportedKind rel = true)
    (h : rel.map_children f = .ok t) :
    eraseInputs t.data = eraseInputs rel := by
  obtain ⟨ort⟩ := rel
  cases ort with
  | none => simp [supportedKind, Rel.rel_type] at hs
  | some rt =>
    cases rt with
    | read r =>
      simp only [Rel.map_children, Rel.rel_type, Transformed.update_data,
        Transformed.no, Except.ok.injEq] at h
      rw [← h]
    | project common input expressions advanced_extension =>
      cases input with
      | none =>
        simp only [Rel.map_children, Rel.rel_type, transform_option_box,
          Transformed.update_data, Transformed.no, Except.ok.injEq] at h
        rw [← h]
      | some c =>
        cases hfc : f c with
        | error e =>
          simp [Rel.map_children, Rel.rel_type, transform_option_box,
            transform_box, hfc] at h
        | ok tc =>
          simp only [Rel.map_children, Rel.rel_type, transform_option_box,
            transform_box, hfc, Transformed.update_data, Except.ok.injEq] at h
          rw [← h]
          rfl
    | filter common input condition advanced_extension =>
      cases input with
      | none =>
        simp only [Rel.map_children, Rel.rel_type, transform_option_box,
          Transformed.update_data, Transformed.no, Except.ok.injEq] at h
        rw [← h]
      | some c =>
        cases hfc : f c with
        | error e =>
          simp [Rel.map_children, Rel.rel_type, transform_option_box,
            transform_box, hfc] at h
        | ok tc =>
          simp only [Rel.map_children, Rel.rel_type, transform_option_box,
            transform_box, hfc, Transformed.update_data, Except.ok.injEq] at h
          rw [← h]
          rfl
    | fetch common input offset count advanced_extension =>
      cases input with
      | none =>
        simp only [Rel.map_children, Rel.rel_type, transform_option_box,
          Transformed.update_data, Transformed.no, Except.ok.injEq] at h
        rw [← h]
      | some c =>
        cases hfc : f c with
        | error e =>
          simp [Rel.map_children, Rel.rel_type, transform_option_box,
            transform_box, hfc] at h
        | ok tc =>
          simp only [Rel.map_children, Rel.rel_type, transform_option_box,
            transform_box, hfc, Transformed.update_data, Except.ok.injEq] at h
          rw [← h]
          rfl
    | aggregate common input groupings measures advanced_extension =>
      cases input with
      | none =>
        simp only [Rel.map_children, Rel.rel_type, transform_option_box,
          Transformed.update_data, Transformed.no, Except.ok.injEq] at h
        rw [← h]
      | some c =>
        cases hfc : f c with
        | error e =>
          simp [Rel.map_children, Rel.rel_type, transform_option_box,
            transform_box, hfc] at h
        | ok tc =>
          simp only [Rel.map_children, Rel.rel_type, transform_option_box,
            transform_box, hfc, Transformed.update_data, Except.ok.injEq] at h
          rw [← h]
          rfl
    | sort common input sorts advanced_extension =>
      cases input with
      | none =>
        simp only [Rel.map_children, Rel.rel_type, transform_option_box,
          Transformed.update_data, Transformed.no, Except.ok.injEq] at h
        rw [← h]
      | some c =>
        cases hfc : f c with
        | error e =>
          simp [Rel.map_children, Rel.rel_type, transform_option_box,
            transform_box, hfc] at h
        | ok tc =>
          simp only [Rel.map_children, Rel.rel_type, transform_option_box,
            transform_box, hfc, Transformed.update_data, Except.ok.injEq] at h
          rw [← h]
          rfl
    | extensionSingle common input detail =>
      cases input with
      | none =>
        simp only [Rel.map_children, Rel.rel_type, transform_option_box,
          Transformed.update_data, Transformed.no, Except.ok.injEq] at h
        rw [← h]
      | some c =>
        cases hfc : f c with
        | error e =>
          simp [Rel.map_children, Rel.rel_type, transform_option_box,
            transform_box, hfc] at h
        | ok tc =>
          simp only [Rel.map_children, Rel.rel_type, transform_option_box,
            transform_box, hfc, Transformed.update_data, Except.ok.injEq] at h
          rw [← h]
          rfl
    | join common left right expression join_type advanced_extension =>
      simp [supportedKind, Rel.rel_type] at hs
    | set common inputs op advanced_extension =>
      simp [supportedKind, Rel.rel_type] at hs
    | extensionMulti common inputs detail =>
      simp [supportedKind, Rel.rel_type] at hs
    | extensionLeaf common detail =>
      simp [supportedKind, Rel.rel_type] at hs
    | cross common left right advanced_extension =>
      simp [supportedKind, Rel.rel_type] at hs
    | exchange common input partition_count advanced_extension =>
      simp [supportedKind, Rel.rel_type] at hs

/-- Witness for C5: rewriting the child of a concrete projection node with a
child-replacing rewriter keeps all non-child fields. -/
theorem map_children_preserves_nonchild_fields_witness :
    eraseInputs projExampleRewritten.data = eraseInputs projExample :=
  map_children_preserves_nonchild_fields projExample replaceRewriter
    projExampleRewritten rfl rfl

end SubstraitTree

namespace Catalog

open DF

/-- C7: the default implementation of `scan_deep` returns exactly the result
of the standard `scan` called with the same state, projection, filters and
limit, for every value of the deep projection map argument — its output does
not depend on the deep map, and no override is needed. -/
theorem scan_deep_default_delegates_to_scan (tp : TableProvider)
    (state : SessionState) (projection : Option (List Nat))
    (projection_deep : Option DeepHashMap) (filters : List FilterExpr)
    (limit : Option Nat) :
    tp.scan_deep state projection projection_deep filters limit
      = tp.scan state projection filters limit :=
  rfl

/-- C8: for every input list of `n` filter expressions, the default
`supports_filters_pushdown` succeeds with a vector of exactly `n` elements,
every one of them `Unsupported` (hence each is one of
{Exact, Inexact, Unsupported}): the default never violates the length
contract. -/
theorem supports_filters_pushdown_default_contract (tp : TableProvider)
    (filters : List FilterExpr) :
    tp.supports_filters_pushdown filters
      = .ok (List.replicate filters.length TableProviderFilterPushDown.unsupported)
    ∧ (List.replicate filters.length TableProviderFilterPushDown.unsupported).length
      = filters.length
    ∧ ∀ x ∈ List.replicate filters.length TableProviderFilterPushDown.unsupported,
        x = TableProviderFilterPushDown.unsupported := by
  refine ⟨rfl, List.length_replicate _ _, ?_⟩
  intro x hx
  exact List.eq_of_mem_replicate hx

/-- Witness for C8: the default on a concrete provider and two filters. -/
theorem supports_filters_pushdown_default_contract_witness :
    TableProvider.supports_filters_pushdown ⟨fun _ _ _ _ => .ok ⟨42⟩⟩ [⟨0⟩, ⟨1⟩]
      = .ok [TableProviderFilterPushDown.unsupported,
             TableProviderFilterPushDown.unsupported]
    ∧ TableProviderFilterPushDown.unsupported
      = TableProviderFilterPushDown.unsupported := by
  have h := supports_filters_pushdown_default_contract
    (⟨fun _ _ _ _ => .ok ⟨42⟩⟩ : TableProvider) [⟨0⟩, ⟨1⟩]
  exact ⟨h.1, h.2.2 TableProviderFilterPushDown.unsupported (by simp)⟩

end Catalog

namespace FirstLast

/-- A set accumulator absorbs any batch: `update_batch` (and `merge_batch`,
which delegates to it) is the identity once `is_set` holds. -/
theorem update_batch_of_set (acc : FirstValueAccumulator) (arr : ArrayRef)
    (h : acc.is_set = true) : acc.update_batch arr = acc := by
  cases arr with
  | nil => rfl
  | cons v rest => simp [FirstValueAccumulator.update_batch, h]

/-- Running any sequence of calls against a set accumulator changes nothing. -/
theorem runCalls_of_set (calls : List AccCall) (acc : FirstValueAccumulator)
    (h : acc.is_set = true) : acc.runCalls calls = acc := by
  induction calls with
  | nil => rfl
  | cons c rest ih =>
    cases c with
    | update v =>
      show (acc.update_batch v).runCalls rest = acc
      rw [update_batch_of_set acc v h]
      exact ih
    | merge v =>
      show (acc.merge_batch v).runCalls rest = acc
      rw [show acc.merge_batch v = acc.update_batch v from rfl,
        update_batch_of_set acc v h]
      exact ih

/-- One step of `runCalls` is `update_batch` on the call's array, for both
call kinds (`merge_batch` delegates to `update_batch`). -/
theorem runCalls_cons (acc : FirstValueAccumulator) (c : AccCall)
    (rest : List AccCall) :
    acc.runCalls (c :: rest) = (acc.update_batch c.values).runCalls rest := by
  cases c <;> rfl

/-- Evaluation and flag of a fresh accumulator after any call sequence:
the first element of the first non-empty array if one exists, else the typed
null; the flag records whether any non-empty array was seen. -/
theorem runCalls_fresh (calls : List AccCall) (dt : ADataType) :
    ((FirstValueAccumulator.try_new dt).runCalls calls).evaluate
      = (firstNonEmptyHead (calls.map AccCall.values)).getD
          (ScalarValue.tryFromDataType dt)
    ∧ ((FirstValueAccumulator.try_new dt).runCalls calls).is_set
      = (calls.map AccCall.values).any (fun a => !a.isEmpty) := by
  induction calls with
  | nil => exact ⟨rfl, rfl⟩
  | cons c rest ih =>
    rw [runCalls_cons]
    cases hv : c.values with
    | nil =>
      rw [show (FirstValueAccumulator.try_new dt).update_batch ([] : ArrayRef)
          = FirstValueAccumulator.try_new dt from rfl]
      constructor
      · simp [hv, firstNonEmptyHead, ih.1]
      · simp [hv, ih.2]
    | cons v vs =>
      rw [show (FirstValueAccumulator.try_new dt).update_batch (v :: vs)
          = ⟨v, true⟩ from rfl,
        runCalls_of_set rest ⟨v, true⟩ rfl]
      constructor
      · simp [hv, firstNonEmptyHead, FirstValueAccumulator.evaluate]
      · simp [hv]

/-- C9: the first-value accumulator preserves its first observed value.  Once
set, neither `update_batch` nor `merge_batch` changes the state (so the flag
stays true and the stored first value is never overwritten); for every
sequence of `update_batch`/`merge_batch` calls against a fresh accumulator,
the `is_set` flag ends true exactly when some processed array was non-empty,
and `evaluate()` returns the first element of the first non-empty array (or
the type's null value if every array was empty). -/
theorem first_value_accumulator_preserves_first (dt : ADataType)
    (calls : List AccCall) (acc : FirstValueAccumulator) (arr : ArrayRef) :
    (acc.is_set = true →
      acc.update_batch arr = acc ∧ acc.merge_batch arr = acc)
    ∧ ((FirstValueAccumulator.try_new dt).runCalls calls).evaluate
      = (firstNonEmptyHead (calls.map AccCall.values)).getD
          (ScalarValue.tryFromDataType dt)
    ∧ ((FirstValueAccumulator.try_new dt).runCalls calls).is_set
      = (calls.map AccCall.values).any (fun a => !a.isEmpty) := by
  refine ⟨fun h => ⟨update_batch_of_set acc arr h, update_batch_of_set acc arr h⟩,
    (runCalls_fresh calls dt).1, (runCalls_fresh calls dt).2⟩

/-- Witness for C9: a set accumulator ignores a later batch, and a concrete
mixed update/merge sequence evaluates to the head of its first non-empty
array. -/
theorem first_value_accumulator_preserves_first_witness :
    ((⟨.int64 (some 3), true⟩ : FirstValueAccumulator).update_batch
        [.int64 (some 7)] = ⟨.int64 (some 3), true⟩)
    ∧ ((FirstValueAccumulator.try_new .int64).runCalls
        [.update [], .merge [.int64 (some 3)], .update [.int64 (some 5)]]).evaluate
      = .int64 (some 3) := by
  have h := first_value_accumulator_preserves_first .int64
    [.update [], .merge [.int64 (some 3)], .update [.int64 (some 5)]]
    ⟨.int64 (some 3), true⟩ [.int64 (some 7)]
  exact ⟨(h.1 rfl).1, h.2.1.trans rfl⟩

end FirstLast

namespace GetField

/-- C10: invoking `get_field` with a base argument whose data type is `Null`
returns the `Null` scalar and never an error, for every field-name argument —
the early return precedes the field-name checks and the type dispatch. -/
theorem invoke_with_args_null_base (base field_name : ColumnarValue)
    (h : (base.data_type).is_null = true) :
    invoke_with_args [base, field_name] = .ok (.scalar .null) := by
  simp [invoke_with_args, h]

/-- Witness for C10: a `Null` scalar base with an array (non-string)
field-name argument still yields the `Null` scalar. -/
theorem invoke_with_args_null_base_witness :
    invoke_with_args [.scalar .null, .array (.mk .int64 [] 0)]
      = .ok (.scalar .null) :=
  invoke_with_args_null_base (.scalar .null) (.array (.mk .int64 [] 0)) rfl

end GetField

namespace DeepPruning

/-- Propagating the absent requirement (`none`) attaches `none` at every scan
the walk reaches: degradation survives every translation rule. -/
theorem scanMaps_propagate_none (p : Plan) :
    (scanMaps (propagate none p)).all Option.isNone = true := by
  induction p with
  | scanP tag => rfl
  | projectionP exprs child ih => simpa [propagate, scanMaps] using ih
  | filterP preds child ih => simpa [propagate, scanMaps] using ih
  | aggregateP groups measureArgs child ih => simpa [propagate, scanMaps] using ih

/-- C2: for every query whose projection is a wildcard (`SELECT *`), the
deep-pruning optimizer attaches no deep requirement map to any scan node the
query touches: the attached `OptionalRequirement` at every such scan is
`none`. -/
theorem wildcard_query_attaches_no_deep_map (q : Query)
    (h : q.wildcard = true) :
    (scanMaps (optimizeQuery q)).all Option.isNone = true := by
  rw [optimizeQuery, rootRequirement, h]
  simpa using scanMaps_propagate_none q.plan

/-- Witness for C2: a concrete wildcard query over a filtered projection
attaches `none` at its scan. -/
theorem wildcard_query_attaches_no_deep_map_witness :
    (scanMaps (optimizeQuery wildcardQueryExample)).all Option.isNone = true :=
  wildcard_query_attaches_no_deep_map wildcardQueryExample rfl

/-- Inserting a path never removes an empty path already present. -/
theorem insertPath_contains_empty (ps : List Path) (p : Path)
    (h : ([] : Path) ∈ ps) :
    ([] : Path) ∈ insertPath ps p := by
  unfold insertPath
  by_cases hp : p = []
  · simp [hp]
  · simp [hp, h]

/-- Membership at the head entry or in the tail, depending on the key. -/
theorem memPath_cons (k : Nat) (ps : List Path) (rest : RequirementMap)
    (i : Nat) (p : Path) :
    memPath ((k, ps) :: rest) i p
      = if (k == i) = true then ps.contains p else memPath rest i p := by
  by_cases h : (k == i) = true <;> simp [memPath, lookupPaths, List.find?, h]

/-- Recording the empty path for a column makes it present. -/
theorem memPath_addPath_empty (m : RequirementMap) (i : Nat) :
    memPath (addPath m i []) i [] = true := by
  induction m with
  | nil => simp [addPath, memPath, lookupPaths, List.find?]
  | cons e rest ih =>
    obtain ⟨j, ps⟩ := e
    by_cases hj : j = i
    · subst hj
      rw [show addPath ((j, ps) :: rest) j [] = (j, insertPath ps []) :: rest
          from by simp [addPath]]
      rw [memPath_cons, if_pos (by simp)]
      simp [insertPath]
    · rw [show addPath ((j, ps) :: rest) i [] = (j, ps) :: addPath rest i []
          from by simp [addPath, hj]]
      rw [memPath_cons, if_neg (by simp [hj])]
      exact ih

/-- Adding any further requirement preserves a recorded empty path. -/
theorem memPath_addPath_mono (m : RequirementMap) (i j : Nat) (p : Path)
    (h : memPath m i [] = true) :
    memPath (addPath m j p) i [] = true := by
  induction m with
  | nil => simp [memPath, lookupPaths, List.find?] at h
  | cons e rest ih =>
    obtain ⟨k, ps⟩ := e
    rw [memPath_cons] at h
    by_cases hkj : k = j
    · subst hkj
      rw [show addPath ((k, ps) :: rest) k p = (k, insertPath ps p) :: rest
          from by simp [addPath]]
      rw [memPath_cons]
      by_cases hki : (k == i) = true
      · rw [if_pos hki] at h ⊢
        have h' : ([] : Path) ∈ ps := by simpa using h
        simpa using insertPath_contains_empty ps p h'
      · rw [if_neg hki] at h ⊢
        exact h
    · rw [show addPath ((k, ps) :: rest) j p = (k, ps) :: addPath rest j p
          from by simp [addPath, hkj]]
      rw [memPath_cons]
      by_cases hki : (k == i) = true
      · rw [if_pos hki] at h ⊢
        exact h
      · rw [if_neg hki] at h ⊢
        exact ih h

/-- Adding a batch of requirements preserves a recorded empty path. -/
theorem memPath_addPairs_mono (pairs : List (Nat × Path)) (m : RequirementMap)
    (i : Nat) (h : memPath m i [] = true) :
    memPath (addPairs m pairs) i [] = true := by
  induction pairs generalizing m with
  | nil => exact h
  | cons ip rest ih =>
    exact ih (addPath m ip.1 ip.2) (memPath_addPath_mono m i ip.1 ip.2 h)

/-- If the batch contains the whole-column (empty-path) requirement for a
column, the resulting map records it. -/
theorem memPath_addPairs_of_mem (pairs : List (Nat × Path)) (i : Nat)
    (h : (i, ([] : Path)) ∈ pairs) :
    ∀ m : RequirementMap, memPath (addPairs m pairs) i [] = true := by
  induction pairs with
  | nil => cases h
  | cons ip rest ih =>
    intro m
    rcases List.mem_cons.mp h with h' | h'
    · subst h'
      exact memPath_addPairs_mono rest (addPath m i []) i
        (memPath_addPath_empty m i)
    · exact ih h' (addPath m ip.1 ip.2)

/-- C3: for a `count(*)`-style aggregate over a filter whose predicate
compares a bare column `i` against a literal (`t.b > 5`), the propagated
requirement map attached at the scan is the filter translation of the
aggregate translation, and it contains column `i` with the whole-column
empty path — `translate_through_filter` unions the predicate's extracted
requirements into the output requirement even though `i` is absent from the
projected output. -/
theorem filter_translation_includes_predicate_column
    (outReq : RequirementMap) (groups measureArgs : List DExpr)
    (opTag litTag tag i : Nat) :
    scanMaps (propagate (some outReq)
        (Plan.aggregateP groups measureArgs
          (Plan.filterP [DExpr.binary opTag (DExpr.column i) (DExpr.literal litTag)]
            (Plan.scanP tag))))
      = [some (translate_through_filter
          (translate_through_aggregate outReq groups measureArgs)
          [DExpr.binary opTag (DExpr.column i) (DExpr.literal litTag)])]
    ∧ memPath (translate_through_filter
          (translate_through_aggregate outReq groups measureArgs)
          [DExpr.binary opTag (DExpr.column i) (DExpr.literal litTag)]) i []
      = true := by
  constructor
  · rfl
  · have hred : translate_through_filter
        (translate_through_aggregate outReq groups measureArgs)
        [DExpr.binary opTag (DExpr.column i) (DExpr.literal litTag)]
        = addPairs (translate_through_aggregate outReq groups measureArgs)
            [(i, ([] : Path))] := by
      simp [translate_through_filter, unionMaps, extractAll, extract,
        addPairs, toPairs, addPath, List.foldl]
    rw [hred]
    exact memPath_addPairs_of_mem _ i (by simp) _

end DeepPruning
